import Mathlib

/-!
Verification of the Adobe AEM CLI (`@ktmcp-cli/adobe`).

The repository is a thin HTTP/JSON client: `src/config.js` persists a
three-field configuration, `src/api.js` builds an authenticated client,
projects JCR-tree JSON responses into flat rows and maps HTTP errors, and
`src/index.js` is the command surface.  This file shallowly embeds that
code: JSON documents become the inductive `Json`, the JavaScript dynamic
semantics the source relies on (`typeof`, truthiness, property access on
`null` throwing a TypeError, `||` fallbacks, object spread) become explicit
total functions, and each fallible operation returns `Except`.

Conventions:
* A JS value that may be `undefined` is an `Option`; `none` is `undefined`.
* A computation that may throw a TypeError returns `Except Unit`.
* Objects are association lists in iteration order: an `obj` value stands
  for the result of `JSON.parse`, so its keys are assumed distinct where a
  theorem needs that, and the list order is `Object.entries` order.
* JSON numbers are embedded as `Int`; the source never does arithmetic on
  response numbers, it only tests truthiness and stringifies them.
-/

namespace AemCli

/-- A JSON value, as produced by `JSON.parse` of a server response body. -/
inductive Json where
  | null : Json
  | bool : Bool → Json
  | num : Int → Json
  | str : String → Json
  | arr : List Json → Json
  | obj : List (String × Json) → Json

/-- JS `typeof v === 'object'` for a JSON value: true for objects, arrays
and `null` (a well-known JavaScript quirk). -/
def typeofIsObject : Json → Bool
  | Json.null => true
  | Json.arr _ => true
  | Json.obj _ => true
  | _ => false

/-- JS truthiness of a JSON value: `null`, `false`, `0` and `""` are falsy. -/
def truthy : Json → Bool
  | Json.null => false
  | Json.bool b => b
  | Json.num n => !(n == 0)
  | Json.str s => !(s == "")
  | Json.arr _ => true
  | Json.obj _ => true

/-- Truthiness of a possibly-`undefined` value (`undefined` is falsy). -/
def truthyOpt : Option Json → Bool
  | none => false
  | some j => truthy j

/-- First binding of a key in an object's entry list (post-`JSON.parse`
objects carry each key once, so first = only). -/
def lookupProp (es : List (String × Json)) (k : String) : Option Json :=
  match es with
  | [] => none
  | (k0, v0) :: rest => if k0 == k then some v0 else lookupProp rest k

/-- JS property access `v[k]` at the non-index keys the source reads
(`jcr:…`, `cq:…`, `error`, `message`): throws a TypeError on `null`,
yields the property of an object, and `undefined` on every other value
(numbers, booleans, strings and arrays have none of these keys). -/
def getProp : Json → String → Except Unit (Option Json)
  | Json.null, _ => Except.error ()
  | Json.obj es, k => Except.ok (lookupProp es k)
  | _, _ => Except.ok none

/-- Optional-chain access `w?.[k]` where `w` is itself the (possibly
`undefined`) result of a previous access: never throws. -/
def safeGet : Option Json → String → Option Json
  | none, _ => none
  | some Json.null, _ => none
  | some (Json.obj es), k => lookupProp es k
  | some _, _ => none

/-- The source's `v[k1]?.[k2]` pattern: the first access may throw
(on `v = null`), the second is optional-chained. -/
def chainGet (v : Json) (k1 k2 : String) : Except Unit (Option Json) :=
  match getProp v k1 with
  | Except.error e => Except.error e
  | Except.ok w => Except.ok (safeGet w k2)

/-- JS `x || fallback` on a possibly-`undefined` JSON value. -/
def jsOr (v : Option Json) (fallback : Json) : Json :=
  match v with
  | some j => if truthy j then j else fallback
  | none => fallback

/-- JS truthiness of a possibly-`undefined` string (`""` is falsy). -/
def strTruthy : Option String → Bool
  | none => false
  | some s => !(s == "")

/-- JS `x || fallback` on a possibly-`undefined` string. -/
def jsOrStr (v : Option String) (fallback : String) : String :=
  match v with
  | some s => if s == "" then fallback else s
  | none => fallback

/-- JS `key.startsWith(pre)` as a character-level prefix test (these keys
are ASCII, so character and code-unit prefixes agree). -/
def strStartsWith (key pre : String) : Bool :=
  pre.data.isPrefixOf key.data

/-- `key.startsWith('jcr:') || key === 'rep:policy'`: the skip test repeated
verbatim in `listAssets` (api.js:54), `listPages` (api.js:111) and
`listTags` (api.js:171). -/
def skippedKey (key : String) : Bool :=
  strStartsWith key "jcr:" || key == "rep:policy"

/-- One row of `listAssets` (api.js:56-63). -/
structure AssetRow where
  name : String
  path : String
  type : Json
  title : Json
  mimeType : Json
  lastModified : Json

/-- One row of `listPages` (api.js:113-119). -/
structure PageRow where
  name : String
  path : String
  title : Json
  template : Json
  lastModified : Json

/-- One row of `listTags` (api.js:173-179). -/
structure TagRow where
  name : String
  path : String
  title : Json
  description : Json
  count : Json

/-- What one iteration of a projection loop does with one child property:
skip it, throw a TypeError, or push a row. -/
inductive Child (ρ : Type) where
  | skip : Child ρ
  | raise : Child ρ
  | keep : ρ → Child ρ

/-- One `listAssets` loop iteration for entry `(key, value)` (api.js:54-63):
skip metadata keys, then keep the child iff `typeof value === 'object'` and
`value['jcr:primaryType']` is truthy — evaluating that guard, or building
the row, throws on a `null` child. -/
def assetChild (path key : String) (value : Json) : Child AssetRow :=
  if skippedKey key then Child.skip
  else if typeofIsObject value then
    match getProp value "jcr:primaryType" with
    | Except.error _ => Child.raise
    | Except.ok pt =>
      if truthyOpt pt then
        match chainGet value "jcr:content" "jcr:title",
              chainGet value "jcr:content" "jcr:mimeType",
              chainGet value "jcr:content" "jcr:lastModified" with
        | Except.ok tt, Except.ok mm, Except.ok lm =>
            -- `pt` is truthy here, so the `Json.null` default is never used.
            Child.keep (AssetRow.mk key (path ++ "/" ++ key) (Option.getD pt Json.null)
              (jsOr tt (Json.str key)) (jsOr mm (Json.str "N/A")) (jsOr lm (Json.str "N/A")))
        | _, _, _ => Child.raise
      else Child.skip
  else Child.skip

/-- One `listPages` loop iteration (api.js:111-119): skip metadata keys,
keep any child with `typeof value === 'object'`; building the row throws on
a `null` child (`value['jcr:content']` on `null`). -/
def pageChild (path key : String) (value : Json) : Child PageRow :=
  if skippedKey key then Child.skip
  else if typeofIsObject value then
    match chainGet value "jcr:content" "jcr:title",
          chainGet value "jcr:content" "cq:template",
          chainGet value "jcr:content" "cq:lastModified" with
    | Except.ok tt, Except.ok tp, Except.ok lm =>
        Child.keep (PageRow.mk key (path ++ "/" ++ key)
          (jsOr tt (Json.str key)) (jsOr tp (Json.str "N/A")) (jsOr lm (Json.str "N/A")))
    | _, _, _ => Child.raise
  else Child.skip

/-- One `listTags` loop iteration (api.js:171-179): like pages but with
direct (unchained) property reads and a `cq:count` field defaulting to 0. -/
def tagChild (ns key : String) (value : Json) : Child TagRow :=
  if skippedKey key then Child.skip
  else if typeofIsObject value then
    match getProp value "jcr:title", getProp value "jcr:description",
          getProp value "cq:count" with
    | Except.ok tt, Except.ok dd, Except.ok cc =>
        Child.keep (TagRow.mk key (ns ++ "/" ++ key)
          (jsOr tt (Json.str key)) (jsOr dd (Json.str "N/A")) (jsOr cc (Json.num 0)))
    | _, _, _ => Child.raise
  else Child.skip

/-- The `listAssets` loop (api.js:53-66).  `count` models `assets.length`,
the number of rows pushed so far; the source pushes a row and only then
checks `assets.length >= limit`, breaking out of the loop. -/
def listAssetsGo (path : String) (limit : Int) :
    List (String × Json) → Nat → Except Unit (List AssetRow)
  | [], _ => Except.ok []
  | (key, value) :: rest, count =>
    match assetChild path key value with
    | Child.skip => listAssetsGo path limit rest count
    | Child.raise => Except.error ()
    | Child.keep row =>
      if limit ≤ (count : Int) + 1 then Except.ok [row]
      else Except.map (fun rows => row :: rows) (listAssetsGo path limit rest (count + 1))

/-- The `listPages` loop (api.js:110-122): same push-then-check limit
handling as assets. -/
def listPagesGo (path : String) (limit : Int) :
    List (String × Json) → Nat → Except Unit (List PageRow)
  | [], _ => Except.ok []
  | (key, value) :: rest, count =>
    match pageChild path key value with
    | Child.skip => listPagesGo path limit rest count
    | Child.raise => Except.error ()
    | Child.keep row =>
      if limit ≤ (count : Int) + 1 then Except.ok [row]
      else Except.map (fun rows => row :: rows) (listPagesGo path limit rest (count + 1))

/-- The `listTags` loop (api.js:170-181): no limit check at all. -/
def listTagsGo (ns : String) : List (String × Json) → Except Unit (List TagRow)
  | [] => Except.ok []
  | (key, value) :: rest =>
    match tagChild ns key value with
    | Child.skip => listTagsGo ns rest
    | Child.raise => Except.error ()
    | Child.keep row => Except.map (fun rows => row :: rows) (listTagsGo ns rest)

/-- `listAssets`' projection of a response object's entries into rows. -/
def listAssetsProj (path : String) (limit : Int) (entries : List (String × Json)) :
    Except Unit (List AssetRow) :=
  listAssetsGo path limit entries 0

/-- `listPages`' projection of a response object's entries into rows. -/
def listPagesProj (path : String) (limit : Int) (entries : List (String × Json)) :
    Except Unit (List PageRow) :=
  listPagesGo path limit entries 0

/-- `listTags`' projection of a response object's entries into rows. -/
def listTagsProj (ns : String) (entries : List (String × Json)) :
    Except Unit (List TagRow) :=
  listTagsGo ns entries

/-- The code's per-child match test for tags (and pages): a non-metadata
key whose value has JS object type. -/
def tagMatch (kv : String × Json) : Bool :=
  !skippedKey kv.1 && typeofIsObject kv.2

/-- Modelled from the spec: "an object bearing a non-empty
`jcr:primaryType`" — the spec's asset-retention criterion (truthiness is
how the code reads "non-empty"). -/
def specAssetRetained : Json → Bool
  | Json.obj es => truthyOpt (lookupProp es "jcr:primaryType")
  | _ => false

/-- Modelled from the spec discussion: a JSON object in the strict sense. -/
def isJsonObject : Json → Bool
  | Json.obj _ => true
  | _ => false

/-- A value of JS object type that property access does not throw on:
an object or an array.  These are exactly the children page/tag
projection retains. -/
def isObjOrArr : Json → Bool
  | Json.obj _ => true
  | Json.arr _ => true
  | _ => false

/-- A hexadecimal digit character (lower case, as `JSON.stringify` emits). -/
def hexDigit (n : Nat) : Char :=
  if n < 10 then Char.ofNat (48 + n) else Char.ofNat (87 + n)

/-- `JSON.stringify`'s escaping of one character inside a string literal. -/
def escapeChar (c : Char) : String :=
  if c == '"' then "\\\""
  else if c == '\\' then "\\\\"
  else if c == '\n' then "\\n"
  else if c == '\r' then "\\r"
  else if c == '\t' then "\\t"
  else if c == '\x08' then "\\b"
  else if c == '\x0c' then "\\f"
  else if c.toNat < 32 then
    "\\u00" ++ String.mk [hexDigit (c.toNat / 16), hexDigit (c.toNat % 16)]
  else String.mk [c]

/-- A JSON string literal as `JSON.stringify` renders it. -/
def quoteJson (s : String) : String :=
  "\"" ++ String.join (s.data.map escapeChar) ++ "\""

mutual

/-- `JSON.stringify(v)` with no indent argument, as called at api.js:33. -/
def stringify : Json → String
  | Json.null => "null"
  | Json.bool b => if b then "true" else "false"
  | Json.num n => toString n
  | Json.str s => quoteJson s
  | Json.arr xs => "[" ++ stringifyArr xs ++ "]"
  | Json.obj es => "\x7b" ++ stringifyObj es ++ "\x7d"

/-- Comma-separated serialized array elements. -/
def stringifyArr : List Json → String
  | [] => ""
  | [x] => stringify x
  | x :: rest => stringify x ++ "," ++ stringifyArr rest

/-- Comma-separated serialized object entries. -/
def stringifyObj : List (String × Json) → String
  | [] => ""
  | [(k, v)] => quoteJson k ++ ":" ++ stringify v
  | (k, v) :: rest => quoteJson k ++ ":" ++ stringify v ++ "," ++ stringifyObj rest

end

mutual

/-- JS string conversion of a JSON value, as a template literal
(api.js:34) performs it: strings pass through, arrays join with commas
(`null` elements become empty), objects print `[object Object]`. -/
def jsToString : Json → String
  | Json.null => "null"
  | Json.bool b => if b then "true" else "false"
  | Json.num n => toString n
  | Json.str s => s
  | Json.arr xs => jsToStringArr xs
  | Json.obj _ => "[object Object]"

/-- `Array.prototype.toString`: elements joined by commas, `null`
rendered as the empty string. -/
def jsToStringArr : List Json → String
  | [] => ""
  | [Json.null] => ""
  | [x] => jsToString x
  | Json.null :: rest => "," ++ jsToStringArr rest
  | x :: rest => jsToString x ++ "," ++ jsToStringArr rest

end

/-- The message extraction of api.js:33:
`data?.error?.message || data?.message || JSON.stringify(data)`, followed
by the template literal's string conversion. -/
def apiErrorMessage (data : Json) : String :=
  let m1 := safeGet (safeGet (some data) "error") "message"
  let m2 := safeGet (some data) "message"
  if truthyOpt m1 then jsToString (Option.getD m1 Json.null)
  else if truthyOpt m2 then jsToString (Option.getD m2 Json.null)
  else stringify data

/-- The persisted configuration record (config.js): three optional string
fields, `none` when a key was never set. -/
structure Config where
  username : Option String
  password : Option String
  baseUrl : Option String

/-- `getConfig(key)` (config.js:5-7) for the three keys this CLI stores. -/
def getConfigVal (cfg : Config) : String → Option String
  | "username" => cfg.username
  | "password" => cfg.password
  | "baseUrl" => cfg.baseUrl
  | _ => none

/-- `isConfigured()` (config.js:13-15): both credentials present and
truthy. -/
def isConfigured (cfg : Config) : Bool :=
  strTruthy cfg.username && strTruthy cfg.password

/-- `DEFAULT_BASE_URL` (api.js:4). -/
def DEFAULT_BASE_URL : String := "http://localhost:4502"

/-- The message of the error `getClient` throws when credentials are
missing (api.js:12). -/
def notConfiguredMsg : String :=
  "AEM credentials not configured. Run: adobe config set --username admin --password admin"

/-- The authenticated axios instance `getClient` builds (api.js:15-22);
only its construction data is modelled, the transport itself is the
`server` oracle each operation takes. -/
structure Client where
  baseURL : String
  username : String
  password : String

/-- `getClient()` (api.js:6-23): read the configuration, throw when
username or password is falsy (unset or empty), otherwise build the
client bound to the configured base URL (defaulted). -/
def getClient (cfg : Config) : Except String Client :=
  let baseURL := jsOrStr cfg.baseUrl DEFAULT_BASE_URL
  if !strTruthy cfg.username || !strTruthy cfg.password then
    Except.error notConfiguredMsg
  else
    Except.ok (Client.mk baseURL (Option.getD cfg.username "") (Option.getD cfg.password ""))

/-- An error as the operations' `catch` blocks see it: either an `Error`
with a known message, or a TypeError raised by the response walking (its
engine-generated message is not modelled). -/
inductive OpError where
  | emsg : String → OpError
  | typeError : OpError
deriving DecidableEq, Repr

/-- The shapes `handleApiError` distinguishes (api.js:25-41): an axios
error with a response, one with a request but no response, or anything
else. -/
inductive CaughtError where
  | response : Nat → Json → CaughtError
  | requestOnly : CaughtError
  | other : OpError → CaughtError

/-- `handleApiError(error)` (api.js:25-41).  It always throws: fixed
messages for 401/403/404/500, an `API Error (status): message` for any
other status, a base-URL message when no response arrived, and the
original error unchanged otherwise. -/
def handleApiError {α : Type} (cfg : Config) : CaughtError → Except OpError α
  | CaughtError.response status data =>
    if status == 401 then
      Except.error (OpError.emsg "Authentication failed. Check your AEM credentials.")
    else if status == 403 then
      Except.error (OpError.emsg "Access forbidden. Check your AEM user permissions.")
    else if status == 404 then
      Except.error (OpError.emsg "Resource not found in AEM.")
    else if status == 500 then
      Except.error (OpError.emsg "AEM server error. Check your AEM instance.")
    else
      Except.error (OpError.emsg
        ("API Error (" ++ toString status ++ "): " ++ apiErrorMessage data))
  | CaughtError.requestOnly =>
    Except.error (OpError.emsg
      ("No response from AEM at " ++ jsOrStr cfg.baseUrl DEFAULT_BASE_URL
        ++ ". Is your AEM instance running?"))
  | CaughtError.other e => Except.error e

/-- One HTTP request as an operation issues it: method, path-relative URL,
and the form/multipart fields for writes (empty for GET/DELETE). -/
structure Request where
  method : String
  url : String
  form : List (String × String)

/-- What the transport yields for a request: a parsed JSON body, an HTTP
error status with body, no response at all, or some other failure. -/
inductive HttpResult where
  | success : Json → HttpResult
  | httpError : Nat → Json → HttpResult
  | noResponse : HttpResult
  | failure : OpError → HttpResult

/-- `Object.entries(data)` on a response body: an object's own entries in
order; an array's or string's index entries; a TypeError on `null`;
nothing for numbers and booleans. -/
def jsEntries : Json → Except Unit (List (String × Json))
  | Json.obj es => Except.ok es
  | Json.arr xs => Except.ok ((xs.enum).map fun p => (toString p.1, p.2))
  | Json.str s =>
    Except.ok ((s.data.enum).map fun p => (toString p.1, Json.str (String.mk [p.2])))
  | Json.null => Except.error ()
  | _ => Except.ok []

/-- The own enumerable entries object-literal spread `{...data}` copies:
like `Object.entries` but spreading `null` (or a primitive) yields
nothing instead of throwing. -/
def jsSpread : Json → List (String × Json)
  | Json.obj es => es
  | Json.arr xs => (xs.enum).map fun p => (toString p.1, p.2)
  | Json.str s => (s.data.enum).map fun p => (toString p.1, Json.str (String.mk [p.2]))
  | _ => []

/-- Assigning `k := v` into an object under construction: overwrites the
value at an existing key's position, else appends. -/
def setProp (es : List (String × Json)) (k : String) (v : Json) : List (String × Json) :=
  match es with
  | [] => [(k, v)]
  | (k0, v0) :: rest => if k0 == k then (k0, v) :: rest else (k0, v0) :: setProp rest k v

/-- Spreading `adds` into an object literal that already holds `base`:
each added entry is assigned in order. -/
def spreadInto (base adds : List (String × Json)) : List (String × Json) :=
  adds.foldl (fun acc kv => setProp acc kv.1 kv.2) base

/-- `getAsset`'s result `{ path: assetPath, ...response.data }`
(api.js:77): the spread comes after the injected path, so a `path` field
of the document overwrites it. -/
def getAssetResult (assetPath : String) (data : Json) : Json :=
  Json.obj (spreadInto [("path", Json.str assetPath)] (jsSpread data))

/-- `getPage`'s result `{ path: pagePath, ...response.data }` (api.js:133),
identical in shape to `getAsset`'s. -/
def getPageResult (pagePath : String) (data : Json) : Json :=
  Json.obj (spreadInto [("path", Json.str pagePath)] (jsSpread data))

/-- The default page template literal (api.js:148). -/
def defaultTemplate : String := "/libs/wcm/foundation/templates/page"

/-- The `URLSearchParams` body `createPage` posts (api.js:142-149); the
template default is applied here, in the payload. -/
def createPageParams (pageName title : String) (template : Option String) :
    List (String × String) :=
  [("_charset_", "utf-8"),
   (":name", pageName),
   ("jcr:primaryType", "cq:Page"),
   ("jcr:content/jcr:primaryType", "cq:PageContent"),
   ("jcr:content/jcr:title", title),
   ("jcr:content/cq:template", jsOrStr template defaultTemplate)]

/-- The object `createPage` returns on success (api.js:154): built
locally, carrying the raw `template` argument (not the defaulted one). -/
structure PageCreateResult where
  path : String
  title : String
  template : Option String
deriving DecidableEq, Repr

/-- The `URLSearchParams` body `createTag` posts (api.js:191-196):
`jcr:description` present only for a truthy description. -/
def createTagParams (title : String) (description : Option String) :
    List (String × String) :=
  [("_charset_", "utf-8"), ("jcr:primaryType", "cq:Tag"), ("jcr:title", title)]
    ++ (if strTruthy description then [("jcr:description", Option.getD description "")] else [])

/-- The object `createTag` returns on success (api.js:201). -/
structure TagCreateResult where
  path : String
  name : String
  title : String
  description : Option String
deriving DecidableEq, Repr

/-- `listAssets(path, {limit})` (api.js:47-71) end to end: build the
client (throwing `notConfiguredMsg` first if unconfigured — the catch
block routes that through `handleApiError`, which rethrows it), issue the
GET, walk the response; a TypeError from the walk is likewise rethrown
unchanged. -/
def listAssetsOp (cfg : Config) (server : Request → HttpResult)
    (path : String) (limit : Int) : Except OpError (List AssetRow) :=
  match getClient cfg with
  | Except.error m => handleApiError cfg (CaughtError.other (OpError.emsg m))
  | Except.ok _ =>
    match server (Request.mk "get" (path ++ ".infinity.json") []) with
    | HttpResult.success data =>
      match jsEntries data with
      | Except.error _ => handleApiError cfg (CaughtError.other OpError.typeError)
      | Except.ok entries =>
        match listAssetsProj path limit entries with
        | Except.error _ => handleApiError cfg (CaughtError.other OpError.typeError)
        | Except.ok rows => Except.ok rows
    | HttpResult.httpError s d => handleApiError cfg (CaughtError.response s d)
    | HttpResult.noResponse => handleApiError cfg CaughtError.requestOnly
    | HttpResult.failure e => handleApiError cfg (CaughtError.other e)

/-- `getAsset(assetPath)` (api.js:73-81). -/
def getAssetOp (cfg : Config) (server : Request → HttpResult)
    (assetPath : String) : Except OpError Json :=
  match getClient cfg with
  | Except.error m => handleApiError cfg (CaughtError.other (OpError.emsg m))
  | Except.ok _ =>
    match server (Request.mk "get" (assetPath ++ ".infinity.json") []) with
    | HttpResult.success data => Except.ok (getAssetResult assetPath data)
    | HttpResult.httpError s d => handleApiError cfg (CaughtError.response s d)
    | HttpResult.noResponse => handleApiError cfg CaughtError.requestOnly
    | HttpResult.failure e => handleApiError cfg (CaughtError.other e)

/-- `uploadAsset(damPath, fileName, fileContent, mimeType)`
(api.js:83-98): multipart POST whose `file` part carries the content and
`fileName` part the name; returns the response body. -/
def uploadAssetOp (cfg : Config) (server : Request → HttpResult)
    (damPath fileName fileContent _mimeType : String) : Except OpError Json :=
  match getClient cfg with
  | Except.error m => handleApiError cfg (CaughtError.other (OpError.emsg m))
  | Except.ok _ =>
    match server (Request.mk "post" (damPath ++ ".createasset.html")
        [("file", fileContent), ("fileName", fileName)]) with
    | HttpResult.success data => Except.ok data
    | HttpResult.httpError s d => handleApiError cfg (CaughtError.response s d)
    | HttpResult.noResponse => handleApiError cfg CaughtError.requestOnly
    | HttpResult.failure e => handleApiError cfg (CaughtError.other e)

/-- `listPages(path, {limit})` (api.js:104-127). -/
def listPagesOp (cfg : Config) (server : Request → HttpResult)
    (path : String) (limit : Int) : Except OpError (List PageRow) :=
  match getClient cfg with
  | Except.error m => handleApiError cfg (CaughtError.other (OpError.emsg m))
  | Except.ok _ =>
    match server (Request.mk "get" (path ++ ".1.json") []) with
    | HttpResult.success data =>
      match jsEntries data with
      | Except.error _ => handleApiError cfg (CaughtError.other OpError.typeError)
      | Except.ok entries =>
        match listPagesProj path limit entries with
        | Except.error _ => handleApiError cfg (CaughtError.other OpError.typeError)
        | Except.ok rows => Except.ok rows
    | HttpResult.httpError s d => handleApiError cfg (CaughtError.response s d)
    | HttpResult.noResponse => handleApiError cfg CaughtError.requestOnly
    | HttpResult.failure e => handleApiError cfg (CaughtError.other e)

/-- `getPage(pagePath)` (api.js:129-137). -/
def getPageOp (cfg : Config) (server : Request → HttpResult)
    (pagePath : String) : Except OpError Json :=
  match getClient cfg with
  | Except.error m => handleApiError cfg (CaughtError.other (OpError.emsg m))
  | Except.ok _ =>
    match server (Request.mk "get" (pagePath ++ ".infinity.json") []) with
    | HttpResult.success data => Except.ok (getPageResult pagePath data)
    | HttpResult.httpError s d => handleApiError cfg (CaughtError.response s d)
    | HttpResult.noResponse => handleApiError cfg CaughtError.requestOnly
    | HttpResult.failure e => handleApiError cfg (CaughtError.other e)

/-- `createPage(parentPath, pageName, title, template)` (api.js:139-158):
form-encoded POST to the parent, then a locally constructed result — the
response body is ignored. -/
def createPageOp (cfg : Config) (server : Request → HttpResult)
    (parentPath pageName title : String) (template : Option String) :
    Except OpError PageCreateResult :=
  match getClient cfg with
  | Except.error m => handleApiError cfg (CaughtError.other (OpError.emsg m))
  | Except.ok _ =>
    match server (Request.mk "post" parentPath (createPageParams pageName title template)) with
    | HttpResult.success _ =>
      Except.ok (PageCreateResult.mk (parentPath ++ "/" ++ pageName) title template)
    | HttpResult.httpError s d => handleApiError cfg (CaughtError.response s d)
    | HttpResult.noResponse => handleApiError cfg CaughtError.requestOnly
    | HttpResult.failure e => handleApiError cfg (CaughtError.other e)

/-- `listTags(namespace)` (api.js:164-186). -/
def listTagsOp (cfg : Config) (server : Request → HttpResult)
    (ns : String) : Except OpError (List TagRow) :=
  match getClient cfg with
  | Except.error m => handleApiError cfg (CaughtError.other (OpError.emsg m))
  | Except.ok _ =>
    match server (Request.mk "get" (ns ++ ".1.json") []) with
    | HttpResult.success data =>
      match jsEntries data with
      | Except.error _ => handleApiError cfg (CaughtError.other OpError.typeError)
      | Except.ok entries =>
        match listTagsProj ns entries with
        | Except.error _ => handleApiError cfg (CaughtError.other OpError.typeError)
        | Except.ok rows => Except.ok rows
    | HttpResult.httpError s d => handleApiError cfg (CaughtError.response s d)
    | HttpResult.noResponse => handleApiError cfg CaughtError.requestOnly
    | HttpResult.failure e => handleApiError cfg (CaughtError.other e)

/-- `createTag(namespace, tagName, title, description)` (api.js:188-205). -/
def createTagOp (cfg : Config) (server : Request → HttpResult)
    (ns tagName title : String) (description : Option String) :
    Except OpError TagCreateResult :=
  match getClient cfg with
  | Except.error m => handleApiError cfg (CaughtError.other (OpError.emsg m))
  | Except.ok _ =>
    match server (Request.mk "post" (ns ++ "/" ++ tagName)
        (createTagParams title description)) with
    | HttpResult.success _ =>
      Except.ok (TagCreateResult.mk (ns ++ "/" ++ tagName) tagName title description)
    | HttpResult.httpError s d => handleApiError cfg (CaughtError.response s d)
    | HttpResult.noResponse => handleApiError cfg CaughtError.requestOnly
    | HttpResult.failure e => handleApiError cfg (CaughtError.other e)

/-- `deleteTag(tagPath)` (api.js:207-215): DELETE, no result on success. -/
def deleteTagOp (cfg : Config) (server : Request → HttpResult)
    (tagPath : String) : Except OpError Unit :=
  match getClient cfg with
  | Except.error m => handleApiError cfg (CaughtError.other (OpError.emsg m))
  | Except.ok _ =>
    match server (Request.mk "delete" tagPath []) with
    | HttpResult.success _ => Except.ok ()
    | HttpResult.httpError s d => handleApiError cfg (CaughtError.response s d)
    | HttpResult.noResponse => handleApiError cfg CaughtError.requestOnly
    | HttpResult.failure e => handleApiError cfg (CaughtError.other e)

/-- `config get <key>` (index.js:108-118): the line printed — an error
line for a missing key, the mask for `password`, the value otherwise.
Chalk's colour codes are presentation and are not modelled. -/
def configGetOutput (cfg : Config) (key : String) : String :=
  match getConfigVal cfg key with
  | none => "Key \"" ++ key ++ "\" not found"
  | some value => if key == "password" then "****" else value

/-- The password line of `config list` (index.js:127). -/
def configListPasswordLine (cfg : Config) : String :=
  "Password:  " ++ (if strTruthy cfg.password then "****" else "not set")

/-- The base-URL line of `config list` (index.js:128). -/
def configListBaseUrlLine (cfg : Config) : String :=
  "Base URL:  " ++
    (if strTruthy cfg.baseUrl then Option.getD cfg.baseUrl ""
     else "using default: http://localhost:4502")

/-! ## Helper lemmas -/

theorem exceptMap_ok {ε α β : Type} {f : α → β} {e : Except ε α} {b : β}
    (h : Except.map f e = Except.ok b) : ∃ a, e = Except.ok a ∧ b = f a := by
  cases e with
  | error err => simp [Except.map] at h
  | ok a => refine ⟨a, rfl, ?_⟩; simpa [Except.map] using h.symm

theorem assetChild_skip_of_skipped {path key : String} {value : Json}
    (h : skippedKey key = true) : assetChild path key value = Child.skip := by
  simp [assetChild, h]

theorem pageChild_skip_of_skipped {path key : String} {value : Json}
    (h : skippedKey key = true) : pageChild path key value = Child.skip := by
  simp [pageChild, h]

theorem tagChild_skip_of_skipped {ns key : String} {value : Json}
    (h : skippedKey key = true) : tagChild ns key value = Child.skip := by
  simp [tagChild, h]

theorem assetChild_keep {path key : String} {value : Json} {row : AssetRow}
    (h : assetChild path key value = Child.keep row) :
    row.name = key ∧ row.path = path ++ "/" ++ key ∧ skippedKey key = false := by
  by_cases hs : skippedKey key = true
  · rw [assetChild_skip_of_skipped hs] at h; cases h
  · unfold assetChild at h
    rw [if_neg hs] at h
    repeat' split at h
    all_goals cases h
    all_goals exact ⟨rfl, rfl, by simpa using hs⟩

theorem pageChild_keep {path key : String} {value : Json} {row : PageRow}
    (h : pageChild path key value = Child.keep row) :
    row.name = key ∧ row.path = path ++ "/" ++ key ∧ skippedKey key = false := by
  by_cases hs : skippedKey key = true
  · rw [pageChild_skip_of_skipped hs] at h; cases h
  · unfold pageChild at h
    rw [if_neg hs] at h
    repeat' split at h
    all_goals cases h
    all_goals exact ⟨rfl, rfl, by simpa using hs⟩

theorem tagChild_keep {ns key : String} {value : Json} {row : TagRow}
    (h : tagChild ns key value = Child.keep row) :
    row.name = key ∧ row.path = ns ++ "/" ++ key ∧ skippedKey key = false := by
  by_cases hs : skippedKey key = true
  · rw [tagChild_skip_of_skipped hs] at h; cases h
  · unfold tagChild at h
    rw [if_neg hs] at h
    repeat' split at h
    all_goals cases h
    all_goals exact ⟨rfl, rfl, by simpa using hs⟩

theorem tagChild_keep_match {ns key : String} {value : Json} {row : TagRow}
    (h : tagChild ns key value = Child.keep row) :
    (!skippedKey key && typeofIsObject value) = true := by
  have hks := (tagChild_keep h).2.2
  cases value <;> simp_all [tagChild, getProp, typeofIsObject]

theorem tagChild_skip_match {ns key : String} {value : Json}
    (h : tagChild ns key value = Child.skip) :
    (!skippedKey key && typeofIsObject value) = false := by
  by_cases hs : skippedKey key = true
  · simp [hs]
  · cases value <;> simp_all [tagChild, getProp, typeofIsObject]

theorem tagChild_keep_objarr {ns key : String} {value : Json} {row : TagRow}
    (h : tagChild ns key value = Child.keep row) :
    (!skippedKey key && isObjOrArr value) = true := by
  have hks := (tagChild_keep h).2.2
  cases value <;> simp_all [tagChild, getProp, typeofIsObject, isObjOrArr]

theorem tagChild_skip_objarr {ns key : String} {value : Json}
    (h : tagChild ns key value = Child.skip) :
    (!skippedKey key && isObjOrArr value) = false := by
  by_cases hs : skippedKey key = true
  · simp [hs]
  · cases value <;> simp_all [tagChild, getProp, typeofIsObject, isObjOrArr]

theorem pageChild_keep_objarr {path key : String} {value : Json} {row : PageRow}
    (h : pageChild path key value = Child.keep row) :
    (!skippedKey key && isObjOrArr value) = true := by
  have hks := (pageChild_keep h).2.2
  cases value <;> simp_all [pageChild, chainGet, getProp, safeGet, typeofIsObject, isObjOrArr]

theorem pageChild_skip_objarr {path key : String} {value : Json}
    (h : pageChild path key value = Child.skip) :
    (!skippedKey key && isObjOrArr value) = false := by
  by_cases hs : skippedKey key = true
  · simp [hs]
  · cases value <;> simp_all [pageChild, chainGet, getProp, safeGet, typeofIsObject, isObjOrArr]

theorem assetChild_keep_spec {path key : String} {value : Json} {row : AssetRow}
    (h : assetChild path key value = Child.keep row) :
    (!skippedKey key && specAssetRetained value) = true := by
  have hks := (assetChild_keep h).2.2
  cases value with
  | obj es =>
    by_cases hpt : truthyOpt (lookupProp es "jcr:primaryType") = true
    · simp [hks, specAssetRetained, hpt]
    · simp_all [assetChild, getProp, typeofIsObject]
  | _ =>
    simp_all [assetChild, getProp, chainGet, safeGet, typeofIsObject, specAssetRetained,
      truthyOpt]

theorem assetChild_skip_spec {path key : String} {value : Json}
    (h : assetChild path key value = Child.skip) :
    (!skippedKey key && specAssetRetained value) = false := by
  by_cases hs : skippedKey key = true
  · simp [hs]
  · cases value with
    | obj es =>
      by_cases hpt : truthyOpt (lookupProp es "jcr:primaryType") = true
      · simp_all [assetChild, getProp, chainGet, safeGet, typeofIsObject]
      · simp [specAssetRetained, hs, Bool.eq_false_iff.mpr hpt]
    | _ =>
      simp_all [assetChild, getProp, chainGet, safeGet, typeofIsObject, specAssetRetained,
        truthyOpt]

theorem listAssetsGo_mem {path : String} {limit : Int} {entries : List (String × Json)}
    {count : Nat} {rows : List AssetRow}
    (hok : listAssetsGo path limit entries count = Except.ok rows) :
    ∀ r ∈ rows, skippedKey r.name = false ∧ r.path = path ++ "/" ++ r.name ∧
      r.name ∈ entries.map Prod.fst := by
  induction entries generalizing count rows with
  | nil =>
    simp only [listAssetsGo] at hok
    cases hok
    intro r hr
    cases hr
  | cons kv rest ih =>
    obtain ⟨key, value⟩ := kv
    intro r hr
    cases hch : assetChild path key value with
    | skip =>
      simp only [listAssetsGo, hch] at hok
      obtain ⟨h1, h2, h3⟩ := ih hok r hr
      exact ⟨h1, h2, by simp only [List.map_cons, List.mem_cons]; exact Or.inr h3⟩
    | raise => simp only [listAssetsGo, hch] at hok; cases hok
    | keep row =>
      simp only [listAssetsGo, hch] at hok
      by_cases hlim : limit ≤ (count : Int) + 1
      · rw [if_pos hlim] at hok
        cases hok
        have hr' : r = row := by simpa using hr
        subst hr'
        obtain ⟨h1, h2, h3⟩ := assetChild_keep hch
        exact ⟨h1 ▸ h3, h1 ▸ h2, by simp [h1]⟩
      · rw [if_neg hlim] at hok
        obtain ⟨rs, hrs, hrows⟩ := exceptMap_ok hok
        subst hrows
        rcases List.mem_cons.mp hr with hr' | hr'
        · subst hr'
          obtain ⟨h1, h2, h3⟩ := assetChild_keep hch
          exact ⟨h1 ▸ h3, h1 ▸ h2, by simp [h1]⟩
        · obtain ⟨h1, h2, h3⟩ := ih hrs r hr'
          exact ⟨h1, h2, by simp only [List.map_cons, List.mem_cons]; exact Or.inr h3⟩

theorem listPagesGo_mem {path : String} {limit : Int} {entries : List (String × Json)}
    {count : Nat} {rows : List PageRow}
    (hok : listPagesGo path limit entries count = Except.ok rows) :
    ∀ r ∈ rows, skippedKey r.name = false ∧ r.path = path ++ "/" ++ r.name ∧
      r.name ∈ entries.map Prod.fst := by
  induction entries generalizing count rows with
  | nil =>
    simp only [listPagesGo] at hok
    cases hok
    intro r hr
    cases hr
  | cons kv rest ih =>
    obtain ⟨key, value⟩ := kv
    intro r hr
    cases hch : pageChild path key value with
    | skip =>
      simp only [listPagesGo, hch] at hok
      obtain ⟨h1, h2, h3⟩ := ih hok r hr
      exact ⟨h1, h2, by simp only [List.map_cons, List.mem_cons]; exact Or.inr h3⟩
    | raise => simp only [listPagesGo, hch] at hok; cases hok
    | keep row =>
      simp only [listPagesGo, hch] at hok
      by_cases hlim : limit ≤ (count : Int) + 1
      · rw [if_pos hlim] at hok
        cases hok
        have hr' : r = row := by simpa using hr
        subst hr'
        obtain ⟨h1, h2, h3⟩ := pageChild_keep hch
        exact ⟨h1 ▸ h3, h1 ▸ h2, by simp [h1]⟩
      · rw [if_neg hlim] at hok
        obtain ⟨rs, hrs, hrows⟩ := exceptMap_ok hok
        subst hrows
        rcases List.mem_cons.mp hr with hr' | hr'
        · subst hr'
          obtain ⟨h1, h2, h3⟩ := pageChild_keep hch
          exact ⟨h1 ▸ h3, h1 ▸ h2, by simp [h1]⟩
        · obtain ⟨h1, h2, h3⟩ := ih hrs r hr'
          exact ⟨h1, h2, by simp only [List.map_cons, List.mem_cons]; exact Or.inr h3⟩

theorem listTagsGo_mem {ns : String} {entries : List (String × Json)}
    {rows : List TagRow}
    (hok : listTagsGo ns entries = Except.ok rows) :
    ∀ r ∈ rows, skippedKey r.name = false ∧ r.path = ns ++ "/" ++ r.name ∧
      r.name ∈ entries.map Prod.fst := by
  induction entries generalizing rows with
  | nil =>
    simp only [listTagsGo] at hok
    cases hok
    intro r hr
    cases hr
  | cons kv rest ih =>
    obtain ⟨key, value⟩ := kv
    intro r hr
    cases hch : tagChild ns key value with
    | skip =>
      simp only [listTagsGo, hch] at hok
      obtain ⟨h1, h2, h3⟩ := ih hok r hr
      exact ⟨h1, h2, by simp only [List.map_cons, List.mem_cons]; exact Or.inr h3⟩
    | raise => simp only [listTagsGo, hch] at hok; cases hok
    | keep row =>
      simp only [listTagsGo, hch] at hok
      obtain ⟨rs, hrs, hrows⟩ := exceptMap_ok hok
      subst hrows
      rcases List.mem_cons.mp hr with hr' | hr'
      · subst hr'
        obtain ⟨h1, h2, h3⟩ := tagChild_keep hch
        exact ⟨h1 ▸ h3, h1 ▸ h2, by simp [h1]⟩
      · obtain ⟨h1, h2, h3⟩ := ih hrs r hr'
        exact ⟨h1, h2, by simp only [List.map_cons, List.mem_cons]; exact Or.inr h3⟩

theorem listAssetsGo_filter {path : String} {limit : Int} (entries : List (String × Json)) :
    ∀ count : Nat,
      listAssetsGo path limit (entries.filter fun kv => !skippedKey kv.1) count
        = listAssetsGo path limit entries count := by
  induction entries with
  | nil => intro count; rfl
  | cons kv rest ih =>
    obtain ⟨key, value⟩ := kv
    intro count
    by_cases hs : skippedKey key = true
    · rw [List.filter_cons_of_neg (by simp [hs])]
      rw [ih count]
      simp only [listAssetsGo, assetChild_skip_of_skipped hs]
    · rw [List.filter_cons_of_pos (by simp [Bool.eq_false_iff.mpr hs])]
      cases hch : assetChild path key value with
      | skip => simp only [listAssetsGo, hch]; exact ih count
      | raise => simp only [listAssetsGo, hch]
      | keep row =>
        simp only [listAssetsGo, hch]
        by_cases hlim : limit ≤ (count : Int) + 1
        · rw [if_pos hlim, if_pos hlim]
        · rw [if_neg hlim, if_neg hlim, ih (count + 1)]

theorem listPagesGo_filter {path : String} {limit : Int} (entries : List (String × Json)) :
    ∀ count : Nat,
      listPagesGo path limit (entries.filter fun kv => !skippedKey kv.1) count
        = listPagesGo path limit entries count := by
  induction entries with
  | nil => intro count; rfl
  | cons kv rest ih =>
    obtain ⟨key, value⟩ := kv
    intro count
    by_cases hs : skippedKey key = true
    · rw [List.filter_cons_of_neg (by simp [hs])]
      rw [ih count]
      simp only [listPagesGo, pageChild_skip_of_skipped hs]
    · rw [List.filter_cons_of_pos (by simp [Bool.eq_false_iff.mpr hs])]
      cases hch : pageChild path key value with
      | skip => simp only [listPagesGo, hch]; exact ih count
      | raise => simp only [listPagesGo, hch]
      | keep row =>
        simp only [listPagesGo, hch]
        by_cases hlim : limit ≤ (count : Int) + 1
        · rw [if_pos hlim, if_pos hlim]
        · rw [if_neg hlim, if_neg hlim, ih (count + 1)]

theorem listTagsGo_filter {ns : String} (entries : List (String × Json)) :
    listTagsGo ns (entries.filter fun kv => !skippedKey kv.1) = listTagsGo ns entries := by
  induction entries with
  | nil => rfl
  | cons kv rest ih =>
    obtain ⟨key, value⟩ := kv
    by_cases hs : skippedKey key = true
    · rw [List.filter_cons_of_neg (by simp [hs])]
      rw [ih]
      simp only [listTagsGo, tagChild_skip_of_skipped hs]
    · rw [List.filter_cons_of_pos (by simp [Bool.eq_false_iff.mpr hs])]
      cases hch : tagChild ns key value with
      | skip => simp only [listTagsGo, hch]; exact ih
      | raise => simp only [listTagsGo, hch]
      | keep row => simp only [listTagsGo, hch, ih]

theorem listAssetsGo_length {path : String} {limit : Int} {entries : List (String × Json)}
    {count : Nat} {rows : List AssetRow}
    (hlt : (count : Int) < limit)
    (hok : listAssetsGo path limit entries count = Except.ok rows) :
    (count : Int) + rows.length ≤ limit := by
  induction entries generalizing count rows with
  | nil =>
    simp only [listAssetsGo] at hok
    cases hok
    simpa using le_of_lt hlt
  | cons kv rest ih =>
    obtain ⟨key, value⟩ := kv
    cases hch : assetChild path key value with
    | skip =>
      simp only [listAssetsGo, hch] at hok
      exact ih hlt hok
    | raise => simp only [listAssetsGo, hch] at hok; cases hok
    | keep row =>
      simp only [listAssetsGo, hch] at hok
      by_cases hlim : limit ≤ (count : Int) + 1
      · rw [if_pos hlim] at hok
        cases hok
        simp only [List.length_singleton]
        omega
      · rw [if_neg hlim] at hok
        obtain ⟨rs, hrs, hrows⟩ := exceptMap_ok hok
        subst hrows
        have := @ih (count + 1) rs (by push_cast; omega) hrs
        simp only [List.length_cons]
        push_cast at this ⊢
        omega

theorem listPagesGo_length {path : String} {limit : Int} {entries : List (String × Json)}
    {count : Nat} {rows : List PageRow}
    (hlt : (count : Int) < limit)
    (hok : listPagesGo path limit entries count = Except.ok rows) :
    (count : Int) + rows.length ≤ limit := by
  induction entries generalizing count rows with
  | nil =>
    simp only [listPagesGo] at hok
    cases hok
    simpa using le_of_lt hlt
  | cons kv rest ih =>
    obtain ⟨key, value⟩ := kv
    cases hch : pageChild path key value with
    | skip =>
      simp only [listPagesGo, hch] at hok
      exact ih hlt hok
    | raise => simp only [listPagesGo, hch] at hok; cases hok
    | keep row =>
      simp only [listPagesGo, hch] at hok
      by_cases hlim : limit ≤ (count : Int) + 1
      · rw [if_pos hlim] at hok
        cases hok
        simp only [List.length_singleton]
        omega
      · rw [if_neg hlim] at hok
        obtain ⟨rs, hrs, hrows⟩ := exceptMap_ok hok
        subst hrows
        have := @ih (count + 1) rs (by push_cast; omega) hrs
        simp only [List.length_cons]
        push_cast at this ⊢
        omega

theorem listTagsGo_names_general {ns : String} (p : (String × Json) → Bool)
    (hkeep : ∀ key value row, tagChild ns key value = Child.keep row → p (key, value) = true)
    (hskip : ∀ key value, tagChild ns key value = Child.skip → p (key, value) = false)
    {entries : List (String × Json)} {rows : List TagRow}
    (hok : listTagsGo ns entries = Except.ok rows) :
    rows.map TagRow.name = (entries.filter p).map Prod.fst := by
  induction entries generalizing rows with
  | nil =>
    simp only [listTagsGo] at hok
    cases hok
    rfl
  | cons kv rest ih =>
    obtain ⟨key, value⟩ := kv
    cases hch : tagChild ns key value with
    | skip =>
      simp only [listTagsGo, hch] at hok
      rw [List.filter_cons_of_neg (by simp [hskip key value hch])]
      exact ih hok
    | raise => simp only [listTagsGo, hch] at hok; cases hok
    | keep row =>
      simp only [listTagsGo, hch] at hok
      obtain ⟨rs, hrs, hrows⟩ := exceptMap_ok hok
      subst hrows
      rw [List.filter_cons_of_pos (by simp [hkeep key value row hch])]
      simp only [List.map_cons]
      rw [(tagChild_keep hch).1, ih hrs]

theorem listAssetsGo_names {path : String} {limit : Int} {entries : List (String × Json)}
    {count : Nat} {rows : List AssetRow}
    (hlen : (count : Int) + entries.length < limit)
    (hok : listAssetsGo path limit entries count = Except.ok rows) :
    rows.map AssetRow.name
      = (entries.filter fun kv => !skippedKey kv.1 && specAssetRetained kv.2).map Prod.fst := by
  induction entries generalizing count rows with
  | nil =>
    simp only [listAssetsGo] at hok
    cases hok
    rfl
  | cons kv rest ih =>
    obtain ⟨key, value⟩ := kv
    simp only [List.length_cons] at hlen
    cases hch : assetChild path key value with
    | skip =>
      simp only [listAssetsGo, hch] at hok
      rw [List.filter_cons_of_neg (by simp [assetChild_skip_spec hch])]
      exact ih (by push_cast at hlen ⊢; omega) hok
    | raise => simp only [listAssetsGo, hch] at hok; cases hok
    | keep row =>
      simp only [listAssetsGo, hch] at hok
      have hlim : ¬ limit ≤ (count : Int) + 1 := by push_cast at hlen; omega
      rw [if_neg hlim] at hok
      obtain ⟨rs, hrs, hrows⟩ := exceptMap_ok hok
      subst hrows
      rw [List.filter_cons_of_pos (by simp [assetChild_keep_spec hch])]
      simp only [List.map_cons]
      rw [(assetChild_keep hch).1, @ih (count + 1) rs (by push_cast at hlen ⊢; omega) hrs]

theorem listPagesGo_names {path : String} {limit : Int} {entries : List (String × Json)}
    {count : Nat} {rows : List PageRow}
    (hlen : (count : Int) + entries.length < limit)
    (hok : listPagesGo path limit entries count = Except.ok rows) :
    rows.map PageRow.name
      = (entries.filter fun kv => !skippedKey kv.1 && isObjOrArr kv.2).map Prod.fst := by
  induction entries generalizing count rows with
  | nil =>
    simp only [listPagesGo] at hok
    cases hok
    rfl
  | cons kv rest ih =>
    obtain ⟨key, value⟩ := kv
    simp only [List.length_cons] at hlen
    cases hch : pageChild path key value with
    | skip =>
      simp only [listPagesGo, hch] at hok
      rw [List.filter_cons_of_neg (by simp [pageChild_skip_objarr hch])]
      exact ih (by push_cast at hlen ⊢; omega) hok
    | raise => simp only [listPagesGo, hch] at hok; cases hok
    | keep row =>
      simp only [listPagesGo, hch] at hok
      have hlim : ¬ limit ≤ (count : Int) + 1 := by push_cast at hlen; omega
      rw [if_neg hlim] at hok
      obtain ⟨rs, hrs, hrows⟩ := exceptMap_ok hok
      subst hrows
      rw [List.filter_cons_of_pos (by simp [pageChild_keep_objarr hch])]
      simp only [List.map_cons]
      rw [(pageChild_keep hch).1, @ih (count + 1) rs (by push_cast at hlen ⊢; omega) hrs]

theorem mem_map_fst_filter_iff {α : Type} {p : (String × α) → Bool}
    {entries : List (String × α)}
    (hnd : (entries.map Prod.fst).Nodup) {kv : String × α} (hkv : kv ∈ entries) :
    kv.1 ∈ (entries.filter p).map Prod.fst ↔ p kv = true := by
  constructor
  · intro h
    obtain ⟨kv', hkv', hfst⟩ := List.mem_map.mp h
    have hmem := List.mem_filter.mp hkv'
    have heq : kv' = kv := List.inj_on_of_nodup_map hnd hmem.1 hkv hfst
    exact heq ▸ hmem.2
  · intro hp
    exact List.mem_map.mpr ⟨kv, List.mem_filter.mpr ⟨hkv, hp⟩, rfl⟩

theorem setProp_append {es : List (String × Json)} {k : String} {v : Json}
    (h : k ∉ es.map Prod.fst) : setProp es k v = es ++ [(k, v)] := by
  induction es with
  | nil => rfl
  | cons kv rest ih =>
    obtain ⟨k0, v0⟩ := kv
    simp only [List.map_cons, List.mem_cons, not_or] at h
    simp only [setProp]
    rw [if_neg (by simpa using fun e => h.1 e.symm)]
    rw [ih h.2]
    rfl

theorem spreadInto_append {acc adds : List (String × Json)}
    (hdis : ∀ a ∈ adds.map Prod.fst, a ∉ acc.map Prod.fst)
    (hnd : (adds.map Prod.fst).Nodup) : spreadInto acc adds = acc ++ adds := by
  induction adds generalizing acc with
  | nil => simp [spreadInto]
  | cons kv rest ih =>
    obtain ⟨k0, v0⟩ := kv
    simp only [List.map_cons, List.nodup_cons] at hnd
    have hk0 : k0 ∉ acc.map Prod.fst := hdis k0 (by simp)
    have hstep : setProp acc k0 v0 = acc ++ [(k0, v0)] := setProp_append hk0
    simp only [spreadInto, List.foldl_cons] at *
    rw [hstep]
    have hdis' : ∀ a ∈ rest.map Prod.fst, a ∉ (acc ++ [(k0, v0)]).map Prod.fst := by
      intro a ha
      simp only [List.map_append, List.mem_append, List.map_cons, List.map_nil,
        List.mem_singleton, not_or]
      exact ⟨hdis a (by simp [ha]), fun e => hnd.1 (e ▸ ha)⟩
    have := ih hdis' hnd.2
    simp only [spreadInto] at this
    rw [this, List.append_assoc]
    rfl

theorem getClient_not_configured {cfg : Config}
    (h : strTruthy cfg.username = false ∨ strTruthy cfg.password = false) :
    getClient cfg = Except.error notConfiguredMsg := by
  unfold getClient
  rcases h with h | h <;> simp [h]

/-! ## Claims -/

/-- Claim C1, counterexample to the claim as stated: with `limit = 0`
(allowed by the claim's "N ≥ 0") and one qualifying child, `listAssets`
still returns one row, because the loop pushes a row before checking
`assets.length >= limit`.  One row is more than zero. -/
theorem listing_limit_zero_counterexample :
    listAssetsProj "/content/dam" 0
        [("a", Json.obj [("jcr:primaryType", Json.str "dam:Asset")])]
      = Except.ok [AssetRow.mk "a" "/content/dam/a" (Json.str "dam:Asset") (Json.str "a")
          (Json.str "N/A") (Json.str "N/A")] ∧
    ¬ ((1 : Int) ≤ 0) :=
  ⟨rfl, by decide⟩

/-- Claim C1 (amended: for every limit `N ≥ 1`): asset and page listings
that complete return at most `N` rows, while the tag listing returns
every matching child — every non-metadata key whose value has JS object
type — with no limit applied. -/
theorem listing_limit_bound (path ns : String) (N : Int) (hN : 1 ≤ N)
    (entries : List (String × Json)) :
    (∀ rows, listAssetsProj path N entries = Except.ok rows → (rows.length : Int) ≤ N) ∧
    (∀ rows, listPagesProj path N entries = Except.ok rows → (rows.length : Int) ≤ N) ∧
    (∀ rows, listTagsProj ns entries = Except.ok rows →
      rows.map TagRow.name = (entries.filter tagMatch).map Prod.fst) := by
  refine ⟨?_, ?_, ?_⟩
  · intro rows hok
    have := @listAssetsGo_length path N entries 0 rows (by omega) hok
    simpa using this
  · intro rows hok
    have := @listPagesGo_length path N entries 0 rows (by omega) hok
    simpa using this
  · intro rows hok
    exact listTagsGo_names_general tagMatch
      (fun key value row h => tagChild_keep_match h)
      (fun key value h => tagChild_skip_match h) hok

/-- Claim C1 witness at `N = 2` on a one-child response. -/
theorem listing_limit_bound_witness :
    (1 : Int) ≤ 2 ∧
    ((∀ rows, listAssetsProj "/content/dam" 2
        [("a", Json.obj [("jcr:primaryType", Json.str "t")])] = Except.ok rows →
        (rows.length : Int) ≤ 2) ∧
     (∀ rows, listPagesProj "/content/dam" 2
        [("a", Json.obj [("jcr:primaryType", Json.str "t")])] = Except.ok rows →
        (rows.length : Int) ≤ 2) ∧
     (∀ rows, listTagsProj "/content/cq:tags"
        [("a", Json.obj [("jcr:primaryType", Json.str "t")])] = Except.ok rows →
        rows.map TagRow.name
          = (List.filter tagMatch [("a", Json.obj [("jcr:primaryType", Json.str "t")])]).map
              Prod.fst)) :=
  ⟨by decide,
   listing_limit_bound "/content/dam" "/content/cq:tags" 2 (by decide)
     [("a", Json.obj [("jcr:primaryType", Json.str "t")])]⟩

/-- Claim C2, counterexample to the claim as stated: page/tag projection
also retains a child whose value is an *array* (`typeof [] === 'object'`),
which is not a JSON object — here the tag listing turns the array-valued
child `"a"` into a row. -/
theorem projection_retention_array_counterexample :
    listTagsProj "/content/cq:tags" [("a", Json.arr [])]
      = Except.ok [TagRow.mk "a" "/content/cq:tags/a" (Json.str "a") (Json.str "N/A")
          (Json.num 0)] ∧
    isJsonObject (Json.arr []) = false :=
  ⟨rfl, rfl⟩

/-- Claim C2 (amended): over the children examined before the limit stops
the scan (`entries.length < limit`) and for distinct keys, a completed
asset projection retains a non-metadata child iff its value is an object
carrying a truthy (present, non-empty) `jcr:primaryType`, while completed
page and tag projections retain a non-metadata child iff its value is an
object **or an array** (any non-`null` value of JS object type; a `null`
child instead makes the listing throw, so it never yields rows). -/
theorem projection_retention_criterion (path ns : String) (limit : Int)
    (entries : List (String × Json))
    (hnd : (entries.map Prod.fst).Nodup)
    (hlen : (entries.length : Int) < limit) :
    (∀ rows, listAssetsProj path limit entries = Except.ok rows → ∀ kv ∈ entries,
      skippedKey kv.1 = false →
        (kv.1 ∈ rows.map AssetRow.name ↔ specAssetRetained kv.2 = true)) ∧
    (∀ rows, listPagesProj path limit entries = Except.ok rows → ∀ kv ∈ entries,
      skippedKey kv.1 = false →
        (kv.1 ∈ rows.map PageRow.name ↔ isObjOrArr kv.2 = true)) ∧
    (∀ rows, listTagsProj ns entries = Except.ok rows → ∀ kv ∈ entries,
      skippedKey kv.1 = false →
        (kv.1 ∈ rows.map TagRow.name ↔ isObjOrArr kv.2 = true)) := by
  refine ⟨?_, ?_, ?_⟩
  · intro rows hok kv hkv hks
    rw [@listAssetsGo_names path limit entries 0 rows (by push_cast; omega) hok]
    rw [mem_map_fst_filter_iff hnd hkv]
    simp [hks]
  · intro rows hok kv hkv hks
    rw [@listPagesGo_names path limit entries 0 rows (by push_cast; omega) hok]
    rw [mem_map_fst_filter_iff hnd hkv]
    simp [hks]
  · intro rows hok kv hkv hks
    rw [listTagsGo_names_general (fun kv => !skippedKey kv.1 && isObjOrArr kv.2)
      (fun key value row h => tagChild_keep_objarr h)
      (fun key value h => tagChild_skip_objarr h) hok]
    rw [mem_map_fst_filter_iff hnd hkv]
    simp [hks]

/-- Claim C2 witness on a two-child response under limit 20. -/
theorem projection_retention_criterion_witness :
    (List.map Prod.fst [("img1", Json.obj [("jcr:primaryType", Json.str "dam:Asset")]),
      ("note", Json.str "hi")]).Nodup ∧
    ((2 : Int) < 20) ∧
    ((∀ rows, listAssetsProj "/content/dam" 20
        [("img1", Json.obj [("jcr:primaryType", Json.str "dam:Asset")]),
         ("note", Json.str "hi")] = Except.ok rows →
        ∀ kv ∈ [("img1", Json.obj [("jcr:primaryType", Json.str "dam:Asset")]),
                ("note", Json.str "hi")],
          skippedKey kv.1 = false →
            (kv.1 ∈ rows.map AssetRow.name ↔ specAssetRetained kv.2 = true)) ∧
     (∀ rows, listPagesProj "/content/dam" 20
        [("img1", Json.obj [("jcr:primaryType", Json.str "dam:Asset")]),
         ("note", Json.str "hi")] = Except.ok rows →
        ∀ kv ∈ [("img1", Json.obj [("jcr:primaryType", Json.str "dam:Asset")]),
                ("note", Json.str "hi")],
          skippedKey kv.1 = false →
            (kv.1 ∈ rows.map PageRow.name ↔ isObjOrArr kv.2 = true)) ∧
     (∀ rows, listTagsProj "/content/cq:tags"
        [("img1", Json.obj [("jcr:primaryType", Json.str "dam:Asset")]),
         ("note", Json.str "hi")] = Except.ok rows →
        ∀ kv ∈ [("img1", Json.obj [("jcr:primaryType", Json.str "dam:Asset")]),
                ("note", Json.str "hi")],
          skippedKey kv.1 = false →
            (kv.1 ∈ rows.map TagRow.name ↔ isObjOrArr kv.2 = true))) :=
  ⟨by simp, by decide,
   projection_retention_criterion "/content/dam" "/content/cq:tags" 20
     [("img1", Json.obj [("jcr:primaryType", Json.str "dam:Asset")]),
      ("note", Json.str "hi")] (by simp) (by decide)⟩

/-- Claim C3: all three listing projections ignore every property whose
key starts with `jcr:` or equals `rep:policy` — filtering those out of
the input changes nothing — and no returned row is named by such a key. -/
theorem projection_skips_jcr_metadata (path ns : String) (limit : Int)
    (entries : List (String × Json)) :
    (listAssetsProj path limit (entries.filter fun kv => !skippedKey kv.1)
        = listAssetsProj path limit entries) ∧
    (listPagesProj path limit (entries.filter fun kv => !skippedKey kv.1)
        = listPagesProj path limit entries) ∧
    (listTagsProj ns (entries.filter fun kv => !skippedKey kv.1)
        = listTagsProj ns entries) ∧
    (∀ rows, listAssetsProj path limit entries = Except.ok rows →
      ∀ r ∈ rows, skippedKey r.name = false) ∧
    (∀ rows, listPagesProj path limit entries = Except.ok rows →
      ∀ r ∈ rows, skippedKey r.name = false) ∧
    (∀ rows, listTagsProj ns entries = Except.ok rows →
      ∀ r ∈ rows, skippedKey r.name = false) :=
  ⟨listAssetsGo_filter entries 0, listPagesGo_filter entries 0, listTagsGo_filter entries,
   fun _ hok r hr => (listAssetsGo_mem hok r hr).1,
   fun _ hok r hr => (listPagesGo_mem hok r hr).1,
   fun _ hok r hr => (listTagsGo_mem hok r hr).1⟩

/-- Claim C10: every row any of the three listings returns satisfies
`row.path = requestPath ++ "/" ++ row.name`, and `row.name` is a property
key of the response object it was projected from. -/
theorem row_path_invariant (path ns : String) (limit : Int)
    (entries : List (String × Json)) :
    (∀ rows, listAssetsProj path limit entries = Except.ok rows →
      ∀ r ∈ rows, r.path = path ++ "/" ++ r.name ∧ r.name ∈ entries.map Prod.fst) ∧
    (∀ rows, listPagesProj path limit entries = Except.ok rows →
      ∀ r ∈ rows, r.path = path ++ "/" ++ r.name ∧ r.name ∈ entries.map Prod.fst) ∧
    (∀ rows, listTagsProj ns entries = Except.ok rows →
      ∀ r ∈ rows, r.path = ns ++ "/" ++ r.name ∧ r.name ∈ entries.map Prod.fst) :=
  ⟨fun _ hok r hr => ⟨(listAssetsGo_mem hok r hr).2.1, (listAssetsGo_mem hok r hr).2.2⟩,
   fun _ hok r hr => ⟨(listPagesGo_mem hok r hr).2.1, (listPagesGo_mem hok r hr).2.2⟩,
   fun _ hok r hr => ⟨(listTagsGo_mem hok r hr).2.1, (listTagsGo_mem hok r hr).2.2⟩⟩

/-- Claim C4: whenever username or password is unset or empty, every one
of the nine resource operations fails with the not-configured error — the
message that instructs running `adobe config set` — and does so for every
possible transport behaviour, i.e. before any network request matters. -/
theorem not_configured_blocks_operations (cfg : Config) (server : Request → HttpResult)
    (h : strTruthy cfg.username = false ∨ strTruthy cfg.password = false) :
    notConfiguredMsg
      = "AEM credentials not configured. Run: adobe config set --username admin --password admin" ∧
    (∀ p l, listAssetsOp cfg server p l = Except.error (OpError.emsg notConfiguredMsg)) ∧
    (∀ p, getAssetOp cfg server p = Except.error (OpError.emsg notConfiguredMsg)) ∧
    (∀ d f c m, uploadAssetOp cfg server d f c m = Except.error (OpError.emsg notConfiguredMsg)) ∧
    (∀ p l, listPagesOp cfg server p l = Except.error (OpError.emsg notConfiguredMsg)) ∧
    (∀ p, getPageOp cfg server p = Except.error (OpError.emsg notConfiguredMsg)) ∧
    (∀ a b c t, createPageOp cfg server a b c t = Except.error (OpError.emsg notConfiguredMsg)) ∧
    (∀ n, listTagsOp cfg server n = Except.error (OpError.emsg notConfiguredMsg)) ∧
    (∀ a b c d, createTagOp cfg server a b c d = Except.error (OpError.emsg notConfiguredMsg)) ∧
    (∀ p, deleteTagOp cfg server p = Except.error (OpError.emsg notConfiguredMsg)) := by
  have hc := getClient_not_configured h
  refine ⟨rfl, ?_, ?_, ?_, ?_, ?_, ?_, ?_, ?_, ?_⟩ <;> intros <;>
    simp [listAssetsOp, getAssetOp, uploadAssetOp, listPagesOp, getPageOp, createPageOp,
      listTagsOp, createTagOp, deleteTagOp, hc, handleApiError]

/-- Claim C4 witness: a configuration with no username, against a live
transport stub. -/
theorem not_configured_blocks_operations_witness :
    (strTruthy (Config.mk none (some "pw") none).username = false ∨
     strTruthy (Config.mk none (some "pw") none).password = false) ∧
    (notConfiguredMsg
      = "AEM credentials not configured. Run: adobe config set --username admin --password admin" ∧
    (∀ p l, listAssetsOp (Config.mk none (some "pw") none)
        (fun _ => HttpResult.success Json.null) p l
        = Except.error (OpError.emsg notConfiguredMsg)) ∧
    (∀ p, getAssetOp (Config.mk none (some "pw") none)
        (fun _ => HttpResult.success Json.null) p
        = Except.error (OpError.emsg notConfiguredMsg)) ∧
    (∀ d f c m, uploadAssetOp (Config.mk none (some "pw") none)
        (fun _ => HttpResult.success Json.null) d f c m
        = Except.error (OpError.emsg notConfiguredMsg)) ∧
    (∀ p l, listPagesOp (Config.mk none (some "pw") none)
        (fun _ => HttpResult.success Json.null) p l
        = Except.error (OpError.emsg notConfiguredMsg)) ∧
    (∀ p, getPageOp (Config.mk none (some "pw") none)
        (fun _ => HttpResult.success Json.null) p
        = Except.error (OpError.emsg notConfiguredMsg)) ∧
    (∀ a b c t, createPageOp (Config.mk none (some "pw") none)
        (fun _ => HttpResult.success Json.null) a b c t
        = Except.error (OpError.emsg notConfiguredMsg)) ∧
    (∀ n, listTagsOp (Config.mk none (some "pw") none)
        (fun _ => HttpResult.success Json.null) n
        = Except.error (OpError.emsg notConfiguredMsg)) ∧
    (∀ a b c d, createTagOp (Config.mk none (some "pw") none)
        (fun _ => HttpResult.success Json.null) a b c d
        = Except.error (OpError.emsg notConfiguredMsg)) ∧
    (∀ p, deleteTagOp (Config.mk none (some "pw") none)
        (fun _ => HttpResult.success Json.null) p
        = Except.error (OpError.emsg notConfiguredMsg))) :=
  ⟨Or.inl rfl,
   not_configured_blocks_operations (Config.mk none (some "pw") none)
     (fun _ => HttpResult.success Json.null) (Or.inl rfl)⟩

/-- Claim C5, counterexample to "message taken from the nested
error.message field if present": a *present but empty* `error.message` is
falsy, so the code falls through to the outer `message` field instead. -/
theorem api_error_empty_message_counterexample :
    handleApiError (α := Unit) (Config.mk none none none)
      (CaughtError.response 418
        (Json.obj [("error", Json.obj [("message", Json.str "")]),
                   ("message", Json.str "outer")]))
      = Except.error (OpError.emsg "API Error (418): outer") ∧
    safeGet (safeGet (some (Json.obj [("error", Json.obj [("message", Json.str "")]),
        ("message", Json.str "outer")])) "error") "message" = some (Json.str "") :=
  ⟨rfl, rfl⟩

/-- Claim C5 (amended: "if present" reads "if present and non-empty,
i.e. truthy"): the error mapping yields the four fixed messages for
401/403/404/500; for any other status an `API Error (status): message`
where the message is the truthy `error.message`, else the truthy
`message`, else the serialized body; the no-response case names the
configured (or default) base URL; and any other failure is rethrown
unchanged. -/
theorem api_error_taxonomy {α : Type} (cfg : Config) (status : Nat) (data : Json)
    (e : OpError)
    (h401 : status ≠ 401) (h403 : status ≠ 403) (h404 : status ≠ 404) (h500 : status ≠ 500) :
    handleApiError (α := α) cfg (CaughtError.response 401 data)
      = Except.error (OpError.emsg "Authentication failed. Check your AEM credentials.") ∧
    handleApiError (α := α) cfg (CaughtError.response 403 data)
      = Except.error (OpError.emsg "Access forbidden. Check your AEM user permissions.") ∧
    handleApiError (α := α) cfg (CaughtError.response 404 data)
      = Except.error (OpError.emsg "Resource not found in AEM.") ∧
    handleApiError (α := α) cfg (CaughtError.response 500 data)
      = Except.error (OpError.emsg "AEM server error. Check your AEM instance.") ∧
    handleApiError (α := α) cfg (CaughtError.response status data)
      = Except.error (OpError.emsg
          ("API Error (" ++ toString status ++ "): " ++ apiErrorMessage data)) ∧
    (truthyOpt (safeGet (safeGet (some data) "error") "message") = true →
      apiErrorMessage data
        = jsToString (Option.getD (safeGet (safeGet (some data) "error") "message")
            Json.null)) ∧
    (truthyOpt (safeGet (safeGet (some data) "error") "message") = false →
      truthyOpt (safeGet (some data) "message") = true →
      apiErrorMessage data
        = jsToString (Option.getD (safeGet (some data) "message") Json.null)) ∧
    (truthyOpt (safeGet (safeGet (some data) "error") "message") = false →
      truthyOpt (safeGet (some data) "message") = false →
      apiErrorMessage data = stringify data) ∧
    handleApiError (α := α) cfg CaughtError.requestOnly
      = Except.error (OpError.emsg ("No response from AEM at "
          ++ jsOrStr cfg.baseUrl DEFAULT_BASE_URL ++ ". Is your AEM instance running?")) ∧
    handleApiError (α := α) cfg (CaughtError.other e) = Except.error e := by
  refine ⟨rfl, rfl, rfl, rfl, ?_, ?_, ?_, ?_, rfl, rfl⟩
  · simp [handleApiError, h401, h403, h404, h500]
  · intro h1
    simp [apiErrorMessage, h1]
  · intro h1 h2
    simp [apiErrorMessage, h1, h2]
  · intro h1 h2
    simp [apiErrorMessage, h1, h2]

/-- Claim C5 witness at status 418 with a body carrying only an outer
`message` field. -/
theorem api_error_taxonomy_witness :
    ((418 : Nat) ≠ 401 ∧ (418 : Nat) ≠ 403 ∧ (418 : Nat) ≠ 404 ∧ (418 : Nat) ≠ 500) ∧
    (handleApiError (α := Unit) (Config.mk none none (some "http://aem:4502"))
        (CaughtError.response 418 (Json.obj [("message", Json.str "boom")]))
      = Except.error (OpError.emsg
          ("API Error (" ++ toString (418 : Nat) ++ "): "
            ++ apiErrorMessage (Json.obj [("message", Json.str "boom")]))) ∧
     handleApiError (α := Unit) (Config.mk none none (some "http://aem:4502"))
        CaughtError.requestOnly
      = Except.error (OpError.emsg ("No response from AEM at "
          ++ jsOrStr (Config.mk none none (some "http://aem:4502")).baseUrl DEFAULT_BASE_URL
          ++ ". Is your AEM instance running?")) ∧
     handleApiError (α := Unit) (Config.mk none none (some "http://aem:4502"))
        (CaughtError.other (OpError.emsg "boom"))
      = Except.error (OpError.emsg "boom")) :=
  have h := api_error_taxonomy (α := Unit) (Config.mk none none (some "http://aem:4502"))
    418 (Json.obj [("message", Json.str "boom")]) (OpError.emsg "boom")
    (by decide) (by decide) (by decide) (by decide)
  ⟨⟨by decide, by decide, by decide, by decide⟩,
   h.2.2.2.2.1, h.2.2.2.2.2.2.2.2.1, h.2.2.2.2.2.2.2.2.2⟩

/-- Claim C6, counterexample to the claim as stated: when the server's
document itself carries a `path` field, the object spread
`{ path: assetPath, ...response.data }` lets the document's value
overwrite the injected request path, so the returned `path` is not the
request path. -/
theorem get_path_overridden_counterexample :
    getAssetResult "/req" (Json.obj [("path", Json.str "/srv")])
      = Json.obj [("path", Json.str "/srv")] ∧
    ("/srv" : String) ≠ "/req" :=
  ⟨rfl, by decide⟩

/-- Claim C6 (amended): for a server document without a `path` field (its
keys distinct), `getAsset` and `getPage` return exactly the document with
the request path prepended as a `path` field and every other field
unchanged; a document's own `path` field would override the injection. -/
theorem get_injects_path_unless_present (assetPath pagePath : String)
    (doc : List (String × Json))
    (hnd : (doc.map Prod.fst).Nodup)
    (hno : "path" ∉ doc.map Prod.fst) :
    getAssetResult assetPath (Json.obj doc)
      = Json.obj (("path", Json.str assetPath) :: doc) ∧
    getPageResult pagePath (Json.obj doc)
      = Json.obj (("path", Json.str pagePath) :: doc) := by
  have key : ∀ p : String,
      spreadInto [("path", Json.str p)] doc = ("path", Json.str p) :: doc := by
    intro p
    have hd : ∀ a ∈ doc.map Prod.fst,
        a ∉ ([("path", Json.str p)] : List (String × Json)).map Prod.fst := by
      intro a ha
      simp only [List.map_cons, List.map_nil, List.mem_singleton]
      intro e
      exact hno (e ▸ ha)
    simpa using spreadInto_append hd hnd
  exact ⟨congrArg Json.obj (key assetPath), congrArg Json.obj (key pagePath)⟩

/-- Claim C6 witness on a one-field document. -/
theorem get_injects_path_unless_present_witness :
    (List.map Prod.fst [("jcr:primaryType", Json.str "dam:Asset")]).Nodup ∧
    "path" ∉ List.map Prod.fst [("jcr:primaryType", Json.str "dam:Asset")] ∧
    (getAssetResult "/content/dam/a.png" (Json.obj [("jcr:primaryType", Json.str "dam:Asset")])
      = Json.obj [("path", Json.str "/content/dam/a.png"),
                  ("jcr:primaryType", Json.str "dam:Asset")] ∧
     getPageResult "/content/p" (Json.obj [("jcr:primaryType", Json.str "dam:Asset")])
      = Json.obj [("path", Json.str "/content/p"),
                  ("jcr:primaryType", Json.str "dam:Asset")]) :=
  ⟨by simp, by simp,
   get_injects_path_unless_present "/content/dam/a.png" "/content/p"
     [("jcr:primaryType", Json.str "dam:Asset")] (by simp) (by simp)⟩

/-- Claim C7: the spec's concrete scenario — the two-entry response at
`/content/dam` with limit 20 projects to exactly the one expected row
(name `img1`, path `/content/dam/img1`, type `dam:Asset`, title `Photo`,
mimeType `N/A`). -/
theorem asset_projection_scenario :
    listAssetsProj "/content/dam" 20
      [("jcr:primaryType", Json.str "x"),
       ("img1", Json.obj [("jcr:primaryType", Json.str "dam:Asset"),
                          ("jcr:content", Json.obj [("jcr:title", Json.str "Photo")])])]
    = Except.ok [AssetRow.mk "img1" "/content/dam/img1" (Json.str "dam:Asset")
        (Json.str "Photo") (Json.str "N/A") (Json.str "N/A")] := rfl

/-- Claim C8, counterexample to the claim as stated: with the template
argument unset, a successful `createPage` returns `template: undefined`
(the raw argument), not the default literal — the default is applied only
inside the posted payload. -/
theorem create_page_template_counterexample :
    createPageOp (Config.mk (some "admin") (some "admin") none)
        (fun _ => HttpResult.success Json.null) "/content/site" "about" "About" none
      = Except.ok (PageCreateResult.mk "/content/site/about" "About" none) ∧
    (PageCreateResult.mk "/content/site/about" "About" none).template ≠ some defaultTemplate :=
  ⟨rfl, by decide⟩

/-- Claim C8 (amended): a successful `createPage` returns the locally
constructed `{path, title, template}` with `path = parent ++ "/" ++ name`
and `template` exactly as passed (absent when unset); the default
template literal is applied to the posted `jcr:content/cq:template`
payload field, not to the returned object; the result never depends on
the response body. -/
theorem create_page_local_result (cfg : Config) (server : Request → HttpResult)
    (parentPath pageName title : String) (template : Option String) (d : Json)
    (hu : strTruthy cfg.username = true) (hp : strTruthy cfg.password = true)
    (hsrv : server (Request.mk "post" parentPath (createPageParams pageName title template))
        = HttpResult.success d) :
    createPageOp cfg server parentPath pageName title template
      = Except.ok (PageCreateResult.mk (parentPath ++ "/" ++ pageName) title template) ∧
    (createPageParams pageName title template).lookup "jcr:content/cq:template"
      = some (jsOrStr template defaultTemplate) ∧
    (template = none → jsOrStr template defaultTemplate = defaultTemplate) := by
  refine ⟨?_, rfl, ?_⟩
  · simp [createPageOp, getClient, hu, hp, hsrv]
  · intro h
    subst h
    rfl

/-- Claim C8 witness with an explicit template argument. -/
theorem create_page_local_result_witness :
    (strTruthy (Config.mk (some "admin") (some "admin") none).username = true ∧
     strTruthy (Config.mk (some "admin") (some "admin") none).password = true) ∧
    (createPageOp (Config.mk (some "admin") (some "admin") none)
        (fun _ => HttpResult.success Json.null) "/content/site" "about" "About"
        (some "/apps/t")
      = Except.ok (PageCreateResult.mk "/content/site/about" "About" (some "/apps/t")) ∧
     (createPageParams "about" "About" (some "/apps/t")).lookup "jcr:content/cq:template"
      = some (jsOrStr (some "/apps/t") defaultTemplate) ∧
     (some "/apps/t" = (none : Option String) →
       jsOrStr (some "/apps/t") defaultTemplate = defaultTemplate)) :=
  ⟨⟨rfl, rfl⟩,
   create_page_local_result (Config.mk (some "admin") (some "admin") none)
     (fun _ => HttpResult.success Json.null) "/content/site" "about" "About"
     (some "/apps/t") Json.null rfl rfl rfl⟩

/-- Claim C9: `config get password` prints the fixed mask `****` for any
stored password — its output is identical for any two stored non-empty
values, so the plaintext never reaches the output — and `config list`
likewise masks the password and reports the base URL as using the default
when it is unset. -/
theorem password_never_printed (u b : Option String) (p1 p2 : String)
    (h1 : p1 ≠ "") (h2 : p2 ≠ "") :
    configGetOutput (Config.mk u (some p1) b) "password" = "****" ∧
    configGetOutput (Config.mk u (some p2) b) "password" = "****" ∧
    configGetOutput (Config.mk u (some p1) b) "password"
      = configGetOutput (Config.mk u (some p2) b) "password" ∧
    configListPasswordLine (Config.mk u (some p1) b) = "Password:  ****" ∧
    configListBaseUrlLine (Config.mk u (some p1) none)
      = "Base URL:  using default: http://localhost:4502" := by
  refine ⟨rfl, rfl, rfl, ?_, rfl⟩
  simp [configListPasswordLine, strTruthy, h1]

/-- Claim C9 witness at two distinct stored passwords. -/
theorem password_never_printed_witness :
    (("hunter2" : String) ≠ "" ∧ ("s3cret" : String) ≠ "") ∧
    (configGetOutput (Config.mk none (some "hunter2") none) "password" = "****" ∧
     configGetOutput (Config.mk none (some "s3cret") none) "password" = "****" ∧
     configGetOutput (Config.mk none (some "hunter2") none) "password"
       = configGetOutput (Config.mk none (some "s3cret") none) "password" ∧
     configListPasswordLine (Config.mk none (some "hunter2") none) = "Password:  ****" ∧
     configListBaseUrlLine (Config.mk none (some "hunter2") none)
       = "Base URL:  using default: http://localhost:4502") :=
  ⟨⟨by decide, by decide⟩,
   password_never_printed none none "hunter2" "s3cret" (by decide) (by decide)⟩

end AemCli
